import Mathlib

set_option maxHeartbeats 1000000

/-!
Shallow embedding of the dataset-preprocessing scripts of the
tempo-changing-music2motion repository:

* `dataset/python/smpl_bvh_to_smpl_npz.py` — channel canonicalization
  (`sample_every_three_2d`) and joint remapping (`build_smpl_npz`);
* `dataset/python/add_tpose_and_rename_clips.py` — header channel-layout
  parsing (`_parse_joint_channels_from_header`) and reference-pose
  synthesis (`prepend_tpose_frame`).

Frames are modelled as `List ℚ` (one rational per channel value), clips as
`List (List ℚ)` (one row per frame); a `ValueError` raised by the Python
code is modelled as `Except.error` carrying the message string.
-/

/-! ## Python string primitives

Executable models of the Python `str` operations the scripts use
(`strip`, `split()`, `startswith`, `endswith`, `int(...)`, `lower`,
substring membership), implemented by structural recursion over the
character list so that concrete inputs evaluate inside the kernel. -/

/-- Python whitespace for `str.strip()` / `str.split()`:
space, tab, newline, carriage return, vertical tab, form feed. -/
def isPySpace (c : Char) : Bool :=
  c == ' ' || c == '\t' || c == '\n' || c == '\r' ||
  c == Char.ofNat 11 || c == Char.ofNat 12

/-- Does the first list start with the second? -/
def startsWithChars : List Char → List Char → Bool
  | _, [] => true
  | [], _ :: _ => false
  | c :: cs, p :: ps => c == p && startsWithChars cs ps

/-- Python `s.strip()` on a character list. -/
def stripChars (l : List Char) : List Char :=
  (((l.dropWhile isPySpace).reverse.dropWhile isPySpace).reverse)

/-- Python `s.split()` on a character list: `cur` accumulates the current
word in reverse. -/
def wordsCharsAux : List Char → List Char → List (List Char)
  | [], cur => if cur = [] then [] else [cur.reverse]
  | c :: cs, cur =>
    if isPySpace c then
      if cur = [] then wordsCharsAux cs []
      else cur.reverse :: wordsCharsAux cs []
    else wordsCharsAux cs (c :: cur)

/-- Value of a digit string, `none` when empty or not all digits. -/
def digitsToNat? (l : List Char) : Option Nat :=
  if l = [] then none
  else
    l.foldl
      (fun acc c =>
        match acc with
        | none => none
        | some n =>
          if 48 ≤ c.toNat ∧ c.toNat ≤ 57 then some (n * 10 + (c.toNat - 48))
          else none)
      (some 0)

/-- Python `int(token)` on a whitespace-free token: optional sign, digits;
`none` models the `ValueError` caught by the surrounding `try/except`. -/
def pyIntChars? : List Char → Option Int
  | '+' :: rest => (digitsToNat? rest).map fun n => (n : Int)
  | '-' :: rest => (digitsToNat? rest).map fun n => -(n : Int)
  | l => (digitsToNat? l).map fun n => (n : Int)

/-- ASCII lower-casing of one character (Python `str.lower` on the
identifiers appearing here). -/
def charLower (c : Char) : Char :=
  if 65 ≤ c.toNat ∧ c.toNat ≤ 90 then Char.ofNat (c.toNat + 32) else c

/-- Does `pat` occur as a contiguous substring? -/
def containsSub : List Char → List Char → Bool
  | [], pat => startsWithChars [] pat
  | h :: t, pat => startsWithChars (h :: t) pat || containsSub t pat

/-- Python `s.strip()`. -/
def pyStrip (s : String) : String := ⟨stripChars s.data⟩

/-- Python `s.startswith(p)`. -/
def pyStartsWith (s p : String) : Bool := startsWithChars s.data p.data

/-- Python `s.endswith(p)`. -/
def pyEndsWith (s p : String) : Bool :=
  startsWithChars s.data.reverse p.data.reverse

/-- Python `s.split()`: split on whitespace runs, no empty pieces. -/
def pyWords (s : String) : List String :=
  (wordsCharsAux s.data []).map fun w => ⟨w⟩

/-- Python `int(s)` returning `none` on `ValueError`. -/
def pyToInt? (s : String) : Option Int := pyIntChars? s.data

/-- Python `s.lower()`. -/
def pyToLower (s : String) : String := ⟨s.data.map charLower⟩

/-- Python `sub in s` substring membership. -/
def pyContains (s sub : String) : Bool := containsSub s.data sub.data

/-! ## Channel Canonicalizer (`sample_every_three_2d`) -/

/-- One row of `sample_every_three_2d`'s reduction loop:
`for i in range(0, len(row), 6): sampled_row.extend(row[i:i+3])` — keep the
first 3 values of every 6-value block; a trailing block shorter than 6
contributes its first (up to) 3 values. -/
def sampleRow : List ℚ → List ℚ
  | c1 :: c2 :: c3 :: _ :: _ :: _ :: rest => c1 :: c2 :: c3 :: sampleRow rest
  | [] => []
  | [c1] => [c1]
  | [c1, c2] => [c1, c2]
  | [c1, c2, c3] => [c1, c2, c3]
  | [c1, c2, c3, _] => [c1, c2, c3]
  | [c1, c2, c3, _, _] => [c1, c2, c3]

/-- Decidable equality for `Except`, used to evaluate error results on
concrete inputs. -/
instance exceptDecEq {ε α : Type} [DecidableEq ε] [DecidableEq α] :
    DecidableEq (Except ε α) := fun x y =>
  match x, y with
  | .error e, .error f =>
    if h : e = f then isTrue (by rw [h])
    else isFalse (by intro hh; cases hh; exact h rfl)
  | .error _, .ok _ => isFalse (by intro hh; cases hh)
  | .ok _, .error _ => isFalse (by intro hh; cases hh)
  | .ok a, .ok b =>
    if h : a = b then isTrue (by rw [h])
    else isFalse (by intro hh; cases hh; exact h rfl)

/-- Model of `sample_every_three_2d` on a `[T, w]` matrix: `w` is the column
count (`arr.shape[1]`), `arr` the list of rows.  The `ValueError` raised when
the width is not a multiple of 3 becomes `Except.error`; a width of exactly 72
is passed through; any other width is reduced row by row. -/
def sample_every_three_2d (w : Nat) (arr : List (List ℚ)) :
    Except String (List (List ℚ)) :=
  if w % 3 ≠ 0 then
    Except.error "Second dimension length must be a multiple of 3."
  else if w = 72 then
    Except.ok arr
  else
    Except.ok (arr.map sampleRow)

/-! ## Joint Remapper (`build_smpl_npz`) -/

/-- Target (SMPL) joint order, from `SMPL_JOINT_NAMES`. -/
def SMPL_JOINT_NAMES : List String :=
  ["pelvis", "left_hip", "right_hip", "spine1", "left_knee", "right_knee",
   "spine2", "left_ankle", "right_ankle", "spine3", "left_foot", "right_foot",
   "neck", "left_collar", "right_collar", "head", "left_shoulder",
   "right_shoulder", "left_elbow", "right_elbow", "left_wrist", "right_wrist",
   "left_hand", "right_hand"]

/-- Source (BVH) joint order, from `BVH_JOINT_NAMES`. -/
def BVH_JOINT_NAMES : List String :=
  ["pelvis", "left_hip", "left_knee", "left_ankle", "left_foot", "right_hip",
   "right_knee", "right_ankle", "right_foot", "spine1", "spine2", "spine3",
   "neck", "head", "left_collar", "left_shoulder", "left_elbow", "left_wrist",
   "left_hand", "right_collar", "right_shoulder", "right_elbow", "right_wrist",
   "right_hand"]

/-- For SMPL slot `i`, the source index used by the remap loop of
`build_smpl_npz`: `idx = BVH_JOINT_NAMES.index(SMPL_JOINT_NAMES[i])`. -/
def bvhIndexOfSmpl (i : Nat) : Nat :=
  BVH_JOINT_NAMES.indexOf (SMPL_JOINT_NAMES.getD i "")

/-- One frame of the remap loop of `build_smpl_npz`:
`rotation_s[:, i] = rotation[:, BVH_JOINT_NAMES.index(SMPL_JOINT_NAMES[i])]`.
The frame is a list of per-joint rotation triples in source (BVH) order; the
result lists them in target (SMPL) order.  The default `(0, 0, 0)` mirrors the
`np.zeros_like` initialisation and is never read when the input has 24
triples. -/
def remapJoints (rotation : List (ℚ × ℚ × ℚ)) : List (ℚ × ℚ × ℚ) :=
  (List.range SMPL_JOINT_NAMES.length).map fun i =>
    rotation.getD (bvhIndexOfSmpl i) (0, 0, 0)

/-! ## Channel Layout Parser (`_parse_joint_channels_from_header`) -/

/-- Parser loop state: `joint_order`, the `joint_channels` dict (modelled as an
insertion-ordered association list) and `current_joint`. -/
structure ParseSt where
  jointOrder : List String
  jointChannels : List (String × List String)
  currentJoint : Option String
deriving DecidableEq

/-- Python dict assignment `m[k] = v` on an insertion-ordered association
list: replace in place when the key is present, append otherwise. -/
def dictInsert {α : Type} (m : List (String × α)) (k : String) (v : α) :
    List (String × α) :=
  if m.any fun e => e.1 == k then
    m.map fun e => if e.1 == k then (k, v) else e
  else
    m ++ [(k, v)]

/-- Python dict lookup `m.get(k)` on an association list. -/
def dictGet? {α : Type} (m : List (String × α)) (k : String) : Option α :=
  (m.find? fun e => e.1 == k).map fun e => e.2

/-- One iteration of the header loop of `_parse_joint_channels_from_header`:
handle a `ROOT`, `JOINT` or `CHANNELS` line, ignore anything else.
`String.toInt?` models Python `int(...)` with the `try/except` wrapper: a
token that is not an integer leaves the state unchanged. -/
def parseLine (st : ParseSt) (line : String) : ParseSt :=
  let s := pyStrip line
  if pyStartsWith s "ROOT " then
    let parts := pyWords s
    if 2 ≤ parts.length then
      { st with currentJoint := some (parts.getD 1 ""),
                jointOrder := st.jointOrder ++ [parts.getD 1 ""] }
    else st
  else if pyStartsWith s "JOINT " then
    let parts := pyWords s
    if 2 ≤ parts.length then
      { st with currentJoint := some (parts.getD 1 ""),
                jointOrder := st.jointOrder ++ [parts.getD 1 ""] }
    else st
  else if pyStartsWith s "CHANNELS " then
    match st.currentJoint with
    | none => st
    | some cj =>
      let parts := pyWords s
      if parts.length < 3 then st
      else
        match pyToInt? (parts.getD 1 "") with
        | none => st
        | some n =>
          { st with jointChannels :=
              dictInsert st.jointChannels cj ((parts.drop 2).take n.toNat) }
  else st

/-- The state after scanning all header lines. -/
def parseHeaderState (header : List String) : ParseSt :=
  header.foldl parseLine ⟨[], [], none⟩

/-- A layout entry `(joint name, start column, channel names)`, one item of
the `joint_to_layout` dict. -/
abbrev LayoutEntry := String × Nat × List String

/-- The channel list the second loop reads for joint `j`:
`joint_channels.get(j, [])`. -/
def chanOfState (st : ParseSt) (j : String) : List String :=
  (dictGet? st.jointChannels j).getD []

/-- One iteration of the offset loop:
`joint_to_layout[j] = {"start": col, "channels": ch}; col += len(ch)`. -/
def layoutStep (chanOf : String → List String) (p : List LayoutEntry × Nat)
    (j : String) : List LayoutEntry × Nat :=
  (dictInsert p.1 j (p.2, chanOf j), p.2 + (chanOf j).length)

/-- Model of `_parse_joint_channels_from_header`: scan the header lines, then
assign start columns in joint declaration order. -/
def parse_joint_channels_from_header (header : List String) :
    List LayoutEntry :=
  let st := parseHeaderState header
  (st.jointOrder.foldl (layoutStep (chanOfState st)) ([], 0)).1

/-- A concrete two-joint header used to exercise the parser theorems. -/
def exampleHeader : List String :=
  ["ROOT pelvis",
   "CHANNELS 6 Xposition Yposition Zposition Zrotation Xrotation Yrotation",
   "JOINT left_hip", "CHANNELS 3 Zrotation Xrotation Yrotation"]

/-- Specification-side recursion for the offset loop, used to prove facts
about `parse_joint_channels_from_header` when joint names are distinct. -/
def layoutSimple (chanOf : String → List String) :
    List String → Nat → List LayoutEntry
  | [], _ => []
  | j :: js, c => (j, c, chanOf j) :: layoutSimple chanOf js (c + (chanOf j).length)

/-- Sum of all joints' channel counts: the frame width a layout spans. -/
def totalChannelWidth (L : List LayoutEntry) : Nat :=
  (L.map fun e => e.2.2.length).sum

/-! ## Reference-Pose Synthesizer (`prepend_tpose_frame`) -/

/-- Column `c` belongs to a rotation channel of the layout: some joint's
channel list has, at some in-range position `k`, a name ending in
`"rotation"`, with `c = start + k`. -/
def isRotCol (layout : List LayoutEntry) (c : Nat) : Bool :=
  layout.any fun e =>
    (List.range e.2.2.length).any fun k =>
      c == e.2.1 + k && pyEndsWith (e.2.2.getD k "") "rotation"

/-- Column `c` is a rotation column of a single joint at `start = s` with
channel list `chs`. -/
def isRotColOfJoint (s : Nat) (chs : List String) (c : Nat) : Bool :=
  (List.range chs.length).any fun k =>
    c == s + k && pyEndsWith (chs.getD k "") "rotation"

/-- One iteration of the zeroing loop of `prepend_tpose_frame`: for a rotation
channel `ch` of a joint at `start = s` with channel list `chs`, write 0 at
`idx = s + chs.index(ch)` when `0 <= idx < len(frame)`. -/
def zeroStep (s : Nat) (chs : List String) (acc : List ℚ) (ch : String) :
    List ℚ :=
  if pyEndsWith ch "rotation" then
    if s + chs.indexOf ch < acc.length then
      acc.set (s + chs.indexOf ch) 0
    else acc
  else acc

/-- The zeroing loop over one joint's channels. -/
def zeroJoint (s : Nat) (chs : List String) (frame : List ℚ) : List ℚ :=
  chs.foldl (zeroStep s chs) frame

/-- The full zeroing pass of `prepend_tpose_frame`:
`for _jname, info in layout.items(): ...` — zero every rotation channel,
leave translation channels untouched. -/
def zeroRotChannels (layout : List LayoutEntry) (frame : List ℚ) : List ℚ :=
  layout.foldl (fun acc e => zeroJoint e.2.1 e.2.2 acc) frame

/-- The resolved external-reference state of `prepend_tpose_frame`:
`tpose_ref_layout`, `tpose_ref_frame0`, `tpose_ref_path_used`,
`force_zero_rotation_joints`. -/
structure RefState where
  layout? : Option (List LayoutEntry)
  frame0? : Option (List ℚ)
  pathUsed? : Option String
  forceZero : List String
deriving DecidableEq

/-- One iteration of the reference-copy loop for a single channel name:
copy `ref0[src_start + src_channels.index(ch)]` into
`acc[dst_start + dst_channels.index(ch)]` when `ch` is a rotation channel
present in the reference joint's channels and both indices are in range. -/
def copyStep (ref0 : List ℚ) (dstStart : Nat) (dstChs : List String)
    (srcStart : Nat) (srcChs : List String) (acc : List ℚ) (ch : String) :
    List ℚ :=
  if pyEndsWith ch "rotation" then
    if srcChs.contains ch then
      if dstStart + dstChs.indexOf ch < acc.length ∧
         srcStart + srcChs.indexOf ch < ref0.length then
        acc.set (dstStart + dstChs.indexOf ch)
          (ref0.getD (srcStart + srcChs.indexOf ch) 0)
      else acc
    else acc
  else acc

/-- The reference-copy pass of `prepend_tpose_frame`: per clip joint, skip
joints in the forced-zero set or absent from the reference layout, otherwise
copy each rotation channel by `(joint name, channel name)`. -/
def copyRefRotations (forceZero : List String) (refLayout : List LayoutEntry)
    (ref0 : List ℚ) (layout : List LayoutEntry) (t : List ℚ) : List ℚ :=
  layout.foldl (fun acc e =>
    if forceZero.contains e.1 then acc
    else
      match refLayout.find? fun r => r.1 == e.1 with
      | none => acc
      | some src => e.2.2.foldl (copyStep ref0 e.2.1 e.2.2 src.2.1 src.2.2) acc) t

/-- A numpy array as returned by `bvh.bvhreader`: 1-dimensional (single-frame
BVH) or 2-dimensional (frames × channels). -/
inductive NpData where
  | d1 : List ℚ → NpData
  | d2 : List (List ℚ) → NpData
deriving DecidableEq

/-- Outcome of the guarded reference-resolution block of
`prepend_tpose_frame`: some step of the `try` body raised (`exn`), the scan
succeeded but no candidate file exists (`noCandidate`), or a candidate file
was found and read (`found basename header data`). -/
inductive RefAttempt where
  | exn : RefAttempt
  | noCandidate : RefAttempt
  | found : String → List String → NpData → RefAttempt
deriving DecidableEq

/-- Python `"bandai" in ref_base` where `ref_base` is the lower-cased
reference file name. -/
def hasBandai (base : String) : Bool :=
  pyContains (pyToLower base) "bandai"

/-- The reference-resolution block of `prepend_tpose_frame`: on an exception
anywhere in the `try` body, or when no candidate exists, everything stays or
is reset to its initial value (`None`/`None`/`None`/empty set).  When a file
is found, a `bandai` filename enables the forced-zero override, a
1-dimensional array is promoted to one frame, and the layout and first frame
are recorded only for a 2-dimensional array with at least one frame. -/
def resolveReference : RefAttempt → RefState
  | .exn => ⟨none, none, none, []⟩
  | .noCandidate => ⟨none, none, none, []⟩
  | .found base header data =>
    let fz : List String :=
      if hasBandai base then ["UpperArm_L", "UpperArm_R"]
      else []
    let data2 := match data with
      | .d1 r => NpData.d2 [r]
      | x => x
    match data2 with
    | .d2 (f0 :: _) =>
      ⟨some (parse_joint_channels_from_header header), some f0, some base, fz⟩
    | _ => ⟨none, none, some base, fz⟩

/-- The synthetic reference frame built for one clip: zero the rotation
channels of a copy of the first frame, then, when a reference layout and
frame are both available, overlay the reference rotations. -/
def makeTposeFrame (rs : RefState) (layout : List LayoutEntry)
    (firstFrame : List ℚ) : List ℚ :=
  let t := zeroRotChannels layout firstFrame
  match rs.layout?, rs.frame0? with
  | some refL, some ref0 => copyRefRotations rs.forceZero refL ref0 layout t
  | _, _ => t

/-- The per-clip body of `prepend_tpose_frame`: reject data that is not
2-dimensional with at least one frame (`ValueError`), otherwise parse the
clip's own header layout, synthesize the reference frame from the clip's
first frame and prepend it. -/
def prepend_tpose_frame_clip (rs : RefState) (header : List String)
    (data : NpData) : Except String (List (List ℚ)) :=
  match data with
  | .d1 _ => Except.error "Unexpected BVH data shape"
  | .d2 [] => Except.error "Unexpected BVH data shape"
  | .d2 (f0 :: rest) =>
    Except.ok (makeTposeFrame rs (parse_joint_channels_from_header header) f0
      :: f0 :: rest)


/-! ## Lemmas: `sampleRow` and `sample_every_three_2d` -/

theorem sampleRow_len (row : List ℚ) (h3 : row.length % 3 = 0) :
    (sampleRow row).length = 3 * ((row.length + 3) / 6) := by
  suffices h : ∀ n (row : List ℚ), row.length = n → row.length % 3 = 0 →
      (sampleRow row).length = 3 * ((row.length + 3) / 6) from
    h row.length row rfl h3
  intro n
  induction n using Nat.strong_induction_on with
  | _ n ih =>
    intro row hn
    rcases row with _ | ⟨c1, _ | ⟨c2, _ | ⟨c3, _ | ⟨c4, _ | ⟨c5, _ | ⟨c6, rest⟩⟩⟩⟩⟩⟩
    · intro _; simp [sampleRow]
    · intro h; simp only [List.length_cons, List.length_nil] at h; omega
    · intro h; simp only [List.length_cons, List.length_nil] at h; omega
    · intro _; simp [sampleRow]
    · intro h; simp only [List.length_cons, List.length_nil] at h; omega
    · intro h; simp only [List.length_cons, List.length_nil] at h; omega
    · intro h
      subst hn
      have h' : rest.length % 3 = 0 := by
        simp only [List.length_cons] at h; omega
      have ih' := ih rest.length (by simp only [List.length_cons]; omega) rest rfl h'
      simp only [sampleRow, List.length_cons, ih']
      omega

theorem getD_cons3 (x y z : ℚ) (l : List ℚ) (n : Nat) :
    (x :: y :: z :: l).getD (n + 3) 0 = l.getD n 0 := rfl

theorem getD_cons6 (x1 x2 x3 x4 x5 x6 : ℚ) (l : List ℚ) (n : Nat) :
    (x1 :: x2 :: x3 :: x4 :: x5 :: x6 :: l).getD (n + 6) 0 = l.getD n 0 := rfl

theorem sampleRow_getD (row : List ℚ) (a b : Nat) (hb : b < 3)
    (hlt : 3 * a + b < (sampleRow row).length) :
    (sampleRow row).getD (3 * a + b) 0 = row.getD (6 * a + b) 0 := by
  suffices h : ∀ n (row : List ℚ), row.length = n → ∀ a b : Nat, b < 3 →
      3 * a + b < (sampleRow row).length →
      (sampleRow row).getD (3 * a + b) 0 = row.getD (6 * a + b) 0 from
    h row.length row rfl a b hb hlt
  clear hlt hb a b row
  intro n
  induction n using Nat.strong_induction_on with
  | _ n ih =>
    intro row hn
    rcases row with _ | ⟨c1, _ | ⟨c2, _ | ⟨c3, _ | ⟨c4, _ | ⟨c5, _ | ⟨c6, rest⟩⟩⟩⟩⟩⟩
    · intro a b _ hlt; simp [sampleRow] at hlt
    · intro a b hb hlt
      have ha : a = 0 := by simp [sampleRow] at hlt; omega
      subst ha; simp [sampleRow]
    · intro a b hb hlt
      have ha : a = 0 := by simp [sampleRow] at hlt; omega
      subst ha; simp [sampleRow]
    · intro a b hb hlt
      have ha : a = 0 := by simp [sampleRow] at hlt; omega
      subst ha; simp [sampleRow]
    · intro a b hb hlt
      have ha : a = 0 := by simp [sampleRow] at hlt; omega
      subst ha
      interval_cases b <;> rfl
    · intro a b hb hlt
      have ha : a = 0 := by simp [sampleRow] at hlt; omega
      subst ha
      interval_cases b <;> rfl
    · intro a b hb hlt
      subst hn
      rcases a with _ | a'
      · interval_cases b <;> rfl
      · have hlen : (sampleRow (c1 :: c2 :: c3 :: c4 :: c5 :: c6 :: rest)).length
            = 3 + (sampleRow rest).length := by
          simp only [sampleRow, List.length_cons]; omega
        have hlt' : 3 * a' + b < (sampleRow rest).length := by
          rw [hlen] at hlt; omega
        have ih' := ih rest.length (by simp only [List.length_cons]; omega) rest rfl
          a' b hb hlt'
        have e1 : 3 * (a' + 1) + b = 3 * a' + b + 3 := by ring
        have e2 : 6 * (a' + 1) + b = 6 * a' + b + 6 := by ring
        rw [e1, e2]
        show (c1 :: c2 :: c3 :: sampleRow rest).getD (3 * a' + b + 3) 0 = _
        rw [getD_cons3, getD_cons6]
        exact ih'

/-- C7: the Channel Canonicalizer's reduction raises its fatal format error
exactly when the input rotation-block width is not a multiple of 3, and
whenever it returns a result every output row's width is a multiple of 3. -/
theorem C7_canonicalizer_width_mult3 (w : Nat) (arr : List (List ℚ))
    (hw : ∀ r ∈ arr, r.length = w) :
    ((∃ e, sample_every_three_2d w arr = Except.error e) ↔ w % 3 ≠ 0)
    ∧ ∀ res, sample_every_three_2d w arr = Except.ok res →
        ∀ r ∈ res, r.length % 3 = 0 := by
  unfold sample_every_three_2d
  by_cases h3 : w % 3 = 0
  · rw [if_neg (by simpa using h3)]
    by_cases h72 : w = 72
    · subst h72
      rw [if_pos rfl]
      refine ⟨by simp, ?_⟩
      intro res hres r hr
      cases hres
      rw [hw r hr]
    · rw [if_neg h72]
      refine ⟨by simp [h3], ?_⟩
      intro res hres r hr
      cases hres
      obtain ⟨r0, hr0, rfl⟩ := List.mem_map.mp hr
      rw [sampleRow_len r0 (by rw [hw r0 hr0]; exact h3)]
      simp [Nat.mul_mod_right]
  · rw [if_pos (by simpa using h3)]
    refine ⟨by simp [h3], ?_⟩
    intro res hres
    cases hres

/-- C7 witness: the theorem instantiated at width 12 with one concrete row. -/
theorem C7_witness :
    (∀ r ∈ [[(1 : ℚ), 2, 3, 4, 5, 6, 7, 8, 9, 10, 11, 12]], r.length = 12)
    ∧ (((∃ e, sample_every_three_2d 12 [[(1 : ℚ), 2, 3, 4, 5, 6, 7, 8, 9, 10, 11, 12]]
          = Except.error e) ↔ 12 % 3 ≠ 0)
       ∧ ∀ res, sample_every_three_2d 12 [[(1 : ℚ), 2, 3, 4, 5, 6, 7, 8, 9, 10, 11, 12]]
            = Except.ok res → ∀ r ∈ res, r.length % 3 = 0) :=
  ⟨by decide, C7_canonicalizer_width_mult3 12 _ (by decide)⟩

/-- C8: on an already-canonical matrix (width 72 = 3 × 24), the Channel
Canonicalizer returns the identical matrix, so applying it twice also
returns the identical matrix. -/
theorem C8_canonicalizer_idempotent (arr : List (List ℚ))
    (hw : ∀ r ∈ arr, r.length = 72) :
    sample_every_three_2d 72 arr = Except.ok arr
    ∧ ∀ res, sample_every_three_2d 72 arr = Except.ok res →
        sample_every_three_2d 72 res = Except.ok res := by
  have hok : sample_every_three_2d 72 arr = Except.ok arr := by
    unfold sample_every_three_2d
    norm_num
  refine ⟨hok, ?_⟩
  intro res hres
  rw [hok] at hres
  cases hres
  exact hok

/-- C8 witness: a concrete 72-column single-frame matrix. -/
theorem C8_witness :
    (∀ r ∈ [List.replicate 72 (0 : ℚ)], r.length = 72)
    ∧ sample_every_three_2d 72 [List.replicate 72 (0 : ℚ)]
        = Except.ok [List.replicate 72 (0 : ℚ)]
    ∧ ∀ res, sample_every_three_2d 72 [List.replicate 72 (0 : ℚ)] = Except.ok res →
        sample_every_three_2d 72 res = Except.ok res :=
  ⟨by decide,
   (C8_canonicalizer_idempotent _ (by decide)).1,
   (C8_canonicalizer_idempotent _ (by decide)).2⟩

/-- C1 counterexample: a rotation block of width 9 — neither 72 nor a
multiple of 6 — does not signal an error: `sample_every_three_2d` returns a
reduced matrix. -/
theorem C1_counterexample :
    sample_every_three_2d 9 [[(1 : ℚ), 2, 3, 4, 5, 6, 7, 8, 9]]
      = Except.ok [[(1 : ℚ), 2, 3, 7, 8, 9]]
    ∧ (9 : Nat) ≠ 72 ∧ ¬ (6 ∣ (9 : Nat))
    ∧ ∀ r ∈ [[(1 : ℚ), 2, 3, 4, 5, 6, 7, 8, 9]], r.length = 9 :=
  ⟨by decide, by decide, by decide, by decide⟩

/-- C1 (amended): the Channel Canonicalizer signals its unsupported-layout
error exactly for widths that are not multiples of 3; width 72 is passed
through unchanged; every other multiple of 3 is reduced by keeping the first
3 of every contiguous group of 6 columns (a trailing group of 3 kept whole). -/
theorem C1_canonicalizer_amended (w : Nat) (arr : List (List ℚ))
    (hw : ∀ r ∈ arr, r.length = w) :
    (w % 3 ≠ 0 → sample_every_three_2d w arr
        = Except.error "Second dimension length must be a multiple of 3.")
    ∧ (w = 72 → sample_every_three_2d w arr = Except.ok arr)
    ∧ (w % 3 = 0 → w ≠ 72 →
        ∃ res, sample_every_three_2d w arr = Except.ok res
          ∧ res.length = arr.length
          ∧ ∀ i, i < arr.length →
              (res.getD i []).length = 3 * ((w + 3) / 6)
              ∧ ∀ a b, b < 3 → 3 * a + b < (res.getD i []).length →
                  (res.getD i []).getD (3 * a + b) 0
                    = (arr.getD i []).getD (6 * a + b) 0) := by
  refine ⟨?_, ?_, ?_⟩
  · intro h
    unfold sample_every_three_2d
    rw [if_pos (by simpa using h)]
  · intro h
    subst h
    unfold sample_every_three_2d
    norm_num
  · intro h3 h72
    refine ⟨arr.map sampleRow, ?_, by simp, ?_⟩
    · unfold sample_every_three_2d
      rw [if_neg (by simpa using h3), if_neg h72]
    · intro i hi
      have hmem : arr.getD i [] ∈ arr := by
        rw [List.getD_eq_getElem _ _ hi]
        exact List.getElem_mem _
      have hgd : (arr.map sampleRow).getD i [] = sampleRow (arr.getD i []) := by
        rw [List.getD_eq_getElem _ _ (by simpa using hi), List.getElem_map,
          List.getD_eq_getElem _ _ hi]
      have hrl : (arr.getD i []).length = w := hw _ hmem
      refine ⟨?_, ?_⟩
      · rw [hgd, sampleRow_len _ (by rw [hrl]; exact h3), hrl]
      · intro a b hb hlt
        rw [hgd] at hlt ⊢
        exact sampleRow_getD _ a b hb hlt

/-- C1 amended witness: the theorem instantiated at width 6 with one
concrete row (and the error branch exercised by the width-9 counterexample
above). -/
theorem C1_amended_witness :
    (∀ r ∈ [[(1 : ℚ), 2, 3, 4, 5, 6]], r.length = 6)
    ∧ ∃ res, sample_every_three_2d 6 [[(1 : ℚ), 2, 3, 4, 5, 6]] = Except.ok res
        ∧ res.length = ([[(1 : ℚ), 2, 3, 4, 5, 6]] : List (List ℚ)).length
        ∧ ∀ i, i < ([[(1 : ℚ), 2, 3, 4, 5, 6]] : List (List ℚ)).length →
            (res.getD i []).length = 3 * ((6 + 3) / 6)
            ∧ ∀ a b, b < 3 → 3 * a + b < (res.getD i []).length →
                (res.getD i []).getD (3 * a + b) 0
                  = (([[(1 : ℚ), 2, 3, 4, 5, 6]] : List (List ℚ)).getD i []).getD
                      (6 * a + b) 0 :=
  ⟨by decide,
   (C1_canonicalizer_amended 6 [[(1 : ℚ), 2, 3, 4, 5, 6]] (by decide)).2.2
     (by decide) (by decide)⟩

/-! ## Lemmas: joint remapping -/

theorem map_getD_range {α : Type} (xs : List α) (d : α) :
    (List.range xs.length).map (fun k => xs.getD k d) = xs := by
  induction xs with
  | nil => rfl
  | cons x xs ih =>
    rw [List.length_cons, List.range_succ_eq_map, List.map_cons, List.map_map]
    have hc : ((fun k => (x :: xs).getD k d) ∘ Nat.succ) = fun k => xs.getD k d := by
      funext k; rfl
    rw [hc, ih]
    rfl

theorem remapJoints_perm (rotation : List (ℚ × ℚ × ℚ))
    (h : rotation.length = 24) : (remapJoints rotation).Perm rotation := by
  have h1 : remapJoints rotation
      = ((List.range 24).map bvhIndexOfSmpl).map
          (fun k => rotation.getD k (0, 0, 0)) := by
    rw [List.map_map]
    rfl
  have h2 : ((List.range 24).map bvhIndexOfSmpl).Perm (List.range 24) := by decide
  have h3 := h2.map fun k => rotation.getD k (0, 0, 0)
  have h4 : (List.range 24).map (fun k => rotation.getD k (0, 0, 0)) = rotation := by
    rw [← h]
    exact map_getD_range rotation _
  rw [h1]
  exact h3.trans (h4 ▸ List.Perm.refl _)

theorem remapJoints_getD (rotation : List (ℚ × ℚ × ℚ)) (i : Nat) (hi : i < 24) :
    (remapJoints rotation).getD i (0, 0, 0)
      = rotation.getD (bvhIndexOfSmpl i) (0, 0, 0) := by
  unfold remapJoints
  rw [List.getD_eq_getElem _ _ (by simpa using hi), List.getElem_map,
    List.getElem_range]

/-- C2: joint remapping in `build_smpl_npz` is a pure permutation on a frame
of 24 per-joint rotation triples: the output is a permutation of the input
(no triple dropped, duplicated or zero-filled), each output slot `i` carries
the triple of the source joint with the same name
(`BVH_JOINT_NAMES.index(SMPL_JOINT_NAMES[i])`), and the two 24-entry joint
name lists contain exactly the same names. -/
theorem C2_remap_is_permutation (rotation : List (ℚ × ℚ × ℚ))
    (h : rotation.length = 24) :
    (remapJoints rotation).Perm rotation
    ∧ SMPL_JOINT_NAMES.Perm BVH_JOINT_NAMES
    ∧ SMPL_JOINT_NAMES.length = 24 ∧ BVH_JOINT_NAMES.length = 24
    ∧ ∀ i, i < 24 → (remapJoints rotation).getD i (0, 0, 0)
        = rotation.getD
            (BVH_JOINT_NAMES.indexOf (SMPL_JOINT_NAMES.getD i "")) (0, 0, 0) :=
  ⟨remapJoints_perm rotation h, by decide, by decide, by decide,
   fun i hi => remapJoints_getD rotation i hi⟩

/-- C2 witness: a concrete frame of 24 triples. -/
theorem C2_witness :
    ((List.replicate 24 ((1 : ℚ), (2 : ℚ), (3 : ℚ))).length = 24)
    ∧ ((remapJoints (List.replicate 24 ((1 : ℚ), (2 : ℚ), (3 : ℚ)))).Perm
        (List.replicate 24 ((1 : ℚ), (2 : ℚ), (3 : ℚ)))
       ∧ SMPL_JOINT_NAMES.Perm BVH_JOINT_NAMES
       ∧ SMPL_JOINT_NAMES.length = 24 ∧ BVH_JOINT_NAMES.length = 24
       ∧ ∀ i, i < 24 →
           (remapJoints (List.replicate 24 ((1 : ℚ), (2 : ℚ), (3 : ℚ)))).getD
               i (0, 0, 0)
             = (List.replicate 24 ((1 : ℚ), (2 : ℚ), (3 : ℚ))).getD
                 (BVH_JOINT_NAMES.indexOf (SMPL_JOINT_NAMES.getD i "")) (0, 0, 0)) :=
  ⟨by decide, C2_remap_is_permutation _ (by decide)⟩

/-! ## Lemmas: the zeroing pass of the Reference-Pose Synthesizer -/

theorem isRotCol_eq_any (layout : List LayoutEntry) (c : Nat) :
    isRotCol layout c = layout.any fun e => isRotColOfJoint e.2.1 e.2.2 c := rfl

theorem isRotColOfJoint_iff (s : Nat) (chs : List String) (c : Nat) :
    isRotColOfJoint s chs c = true
      ↔ ∃ k, k < chs.length ∧ c = s + k
          ∧ pyEndsWith (chs.getD k "") "rotation" = true := by
  simp only [isRotColOfJoint, List.any_eq_true, List.mem_range,
    Bool.and_eq_true, beq_iff_eq]

theorem isRotCol_iff (layout : List LayoutEntry) (c : Nat) :
    isRotCol layout c = true
      ↔ ∃ e ∈ layout, isRotColOfJoint e.2.1 e.2.2 c = true := by
  rw [isRotCol_eq_any]
  simp [List.any_eq_true]

theorem getD_set_self : ∀ (l : List ℚ) (i : Nat) (v : ℚ), i < l.length →
    (l.set i v).getD i 0 = v
  | [], i, v, h => absurd h (by simp)
  | _ :: _, 0, v, _ => rfl
  | x :: l, i + 1, v, h => getD_set_self l i v (by simpa using h)

theorem getD_set_ne : ∀ (l : List ℚ) (i c : Nat) (v : ℚ), i ≠ c →
    (l.set i v).getD c 0 = l.getD c 0
  | [], _, _, _, _ => by simp
  | x :: l, 0, 0, v, h => absurd rfl h
  | x :: l, 0, c + 1, v, _ => rfl
  | x :: l, i + 1, 0, v, _ => rfl
  | x :: l, i + 1, c + 1, v, h =>
    getD_set_ne l i c v fun he => h (by rw [he])

theorem zeroStep_length (s : Nat) (chs : List String) (acc : List ℚ)
    (ch : String) : (zeroStep s chs acc ch).length = acc.length := by
  unfold zeroStep
  split
  · split
    · exact List.length_set acc _ _
    · rfl
  · rfl

theorem foldl_zeroStep_length (s : Nat) (chs : List String) :
    ∀ (l : List String) (acc : List ℚ),
      (l.foldl (zeroStep s chs) acc).length = acc.length
  | [], _ => rfl
  | ch :: l, acc => by
    rw [List.foldl_cons, foldl_zeroStep_length s chs l _, zeroStep_length]

theorem zeroJoint_length (s : Nat) (chs : List String) (frame : List ℚ) :
    (zeroJoint s chs frame).length = frame.length :=
  foldl_zeroStep_length s chs chs frame

theorem zeroRotChannels_nil (frame : List ℚ) :
    zeroRotChannels [] frame = frame := rfl

theorem zeroRotChannels_cons (e : LayoutEntry) (L : List LayoutEntry)
    (frame : List ℚ) :
    zeroRotChannels (e :: L) frame
      = zeroRotChannels L (zeroJoint e.2.1 e.2.2 frame) := rfl

theorem zeroRotChannels_append (L1 L2 : List LayoutEntry) (frame : List ℚ) :
    zeroRotChannels (L1 ++ L2) frame
      = zeroRotChannels L2 (zeroRotChannels L1 frame) := by
  unfold zeroRotChannels
  rw [List.foldl_append]

theorem zeroRotChannels_length : ∀ (layout : List LayoutEntry) (frame : List ℚ),
    (zeroRotChannels layout frame).length = frame.length
  | [], _ => rfl
  | e :: L, frame => by
    rw [zeroRotChannels_cons, zeroRotChannels_length L _, zeroJoint_length]

theorem foldl_zeroStep_getD_of_notRot (s : Nat) (chs : List String) (c : Nat)
    (hc : isRotColOfJoint s chs c = false) :
    ∀ (l : List String) (acc : List ℚ), (∀ ch ∈ l, ch ∈ chs) →
      (l.foldl (zeroStep s chs) acc).getD c 0 = acc.getD c 0
  | [], _, _ => rfl
  | ch :: l, acc, hsub => by
    rw [List.foldl_cons,
      foldl_zeroStep_getD_of_notRot s chs c hc l _ fun x hx => hsub x (by simp [hx])]
    unfold zeroStep
    split
    · next hrot =>
      split
      · next hlt =>
        have hmem : ch ∈ chs := hsub ch (by simp)
        have hidx : chs.indexOf ch < chs.length := List.indexOf_lt_length.mpr hmem
        have hne : s + chs.indexOf ch ≠ c := by
          intro he
          have : isRotColOfJoint s chs c = true := by
            rw [isRotColOfJoint_iff]
            refine ⟨chs.indexOf ch, hidx, he.symm, ?_⟩
            rw [List.getD_eq_getElem _ _ hidx, List.getElem_indexOf hidx]
            exact hrot
          rw [this] at hc
          cases hc
        exact getD_set_ne acc _ c 0 hne
      · rfl
    · rfl

theorem zeroJoint_getD_of_notRot (s : Nat) (chs : List String) (frame : List ℚ)
    (c : Nat) (hc : isRotColOfJoint s chs c = false) :
    (zeroJoint s chs frame).getD c 0 = frame.getD c 0 :=
  foldl_zeroStep_getD_of_notRot s chs c hc chs frame fun _ hx => hx

theorem zeroRotChannels_getD_of_notRot :
    ∀ (layout : List LayoutEntry) (frame : List ℚ) (c : Nat),
      isRotCol layout c = false →
      (zeroRotChannels layout frame).getD c 0 = frame.getD c 0
  | [], _, _, _ => rfl
  | e :: L, frame, c, h => by
    rw [isRotCol_eq_any, List.any_cons] at h
    have h1 : isRotColOfJoint e.2.1 e.2.2 c = false := by
      cases hb : isRotColOfJoint e.2.1 e.2.2 c
      · rfl
      · simp [hb] at h
    have h2 : isRotCol L c = false := by
      rw [isRotCol_eq_any]
      cases hb : L.any fun e => isRotColOfJoint e.2.1 e.2.2 c
      · rfl
      · simp [hb] at h
    rw [zeroRotChannels_cons, zeroRotChannels_getD_of_notRot L _ c h2,
      zeroJoint_getD_of_notRot _ _ _ _ h1]

theorem foldl_zeroStep_stays_zero (s : Nat) (chs : List String) :
    ∀ (l : List String) (acc : List ℚ) (c : Nat), acc.getD c 0 = 0 →
      (l.foldl (zeroStep s chs) acc).getD c 0 = 0
  | [], _, _, h => h
  | ch :: l, acc, c, h => by
    rw [List.foldl_cons]
    apply foldl_zeroStep_stays_zero s chs l _ c
    unfold zeroStep
    split
    · split
      · next hlt =>
        rcases eq_or_ne (s + chs.indexOf ch) c with he | hne
        · rw [← he] at h ⊢
          exact getD_set_self acc _ 0 hlt
        · rw [getD_set_ne acc _ c 0 hne]
          exact h
      · exact h
    · exact h

theorem zeroRotChannels_stays_zero :
    ∀ (layout : List LayoutEntry) (acc : List ℚ) (c : Nat), acc.getD c 0 = 0 →
      (zeroRotChannels layout acc).getD c 0 = 0
  | [], _, _, h => h
  | e :: L, acc, c, h => by
    rw [zeroRotChannels_cons]
    exact zeroRotChannels_stays_zero L _ c
      (foldl_zeroStep_stays_zero e.2.1 e.2.2 e.2.2 acc c h)

theorem indexOf_getD_of_nodup : ∀ (l : List String), l.Nodup →
    ∀ k, k < l.length → l.indexOf (l.getD k "") = k
  | [], _, k, h => absurd h (by simp)
  | a :: l, hnd, 0, _ => by
    rw [List.getD_cons_zero]
    exact List.indexOf_cons_self a l
  | a :: l, hnd, k + 1, h => by
    have hk : k < l.length := by simpa using h
    have hmem : l.getD k "" ∈ l := by
      rw [List.getD_eq_getElem _ _ hk]
      exact List.getElem_mem _
    have hne : a ≠ l.getD k "" := by
      intro he
      exact (List.nodup_cons.mp hnd).1 (he ▸ hmem)
    rw [List.getD_cons_succ, @List.indexOf_cons_ne String _ (l.getD k "") a l hne,
      indexOf_getD_of_nodup l (List.nodup_cons.mp hnd).2 k hk]

theorem foldl_zeroStep_zeroes (s : Nat) (chs : List String) (k : Nat)
    (hk : k < chs.length)
    (hrot : pyEndsWith (chs.getD k "") "rotation" = true)
    (hidx : chs.indexOf (chs.getD k "") = k) :
    ∀ (l : List String) (acc : List ℚ), chs.getD k "" ∈ l →
      s + k < acc.length →
      (l.foldl (zeroStep s chs) acc).getD (s + k) 0 = 0
  | [], _, hmem, _ => absurd hmem (by simp)
  | ch :: l, acc, hmem, hlt => by
    rw [List.foldl_cons]
    rcases eq_or_ne ch (chs.getD k "") with he | hne
    · subst he
      apply foldl_zeroStep_stays_zero s chs l _ _
      unfold zeroStep
      rw [hidx, if_pos hrot, if_pos hlt]
      exact getD_set_self acc _ 0 hlt
    · have hmem' : chs.getD k "" ∈ l := by
        rcases List.mem_cons.mp hmem with h | h
        · exact absurd h.symm hne
        · exact h
      exact foldl_zeroStep_zeroes s chs k hk hrot hidx l _ hmem'
        (by rw [zeroStep_length]; exact hlt)

theorem zeroJoint_zeroes (s : Nat) (chs : List String) (frame : List ℚ)
    (k : Nat) (hnd : chs.Nodup) (hk : k < chs.length)
    (hrot : pyEndsWith (chs.getD k "") "rotation" = true)
    (hlt : s + k < frame.length) :
    (zeroJoint s chs frame).getD (s + k) 0 = 0 := by
  have hmem : chs.getD k "" ∈ chs := by
    rw [List.getD_eq_getElem _ _ hk]
    exact List.getElem_mem _
  exact foldl_zeroStep_zeroes s chs k hk hrot
    (indexOf_getD_of_nodup chs hnd k hk) chs frame hmem hlt

theorem zeroRotChannels_getD_of_rot (layout : List LayoutEntry)
    (frame : List ℚ) (c : Nat) (hnd : ∀ e ∈ layout, e.2.2.Nodup)
    (hrot : isRotCol layout c = true) (hc : c < frame.length) :
    (zeroRotChannels layout frame).getD c 0 = 0 := by
  obtain ⟨e, hmem, he⟩ := (isRotCol_iff layout c).mp hrot
  obtain ⟨l1, l2, rfl⟩ := List.append_of_mem hmem
  obtain ⟨k, hk, hck, hkrot⟩ := (isRotColOfJoint_iff _ _ _).mp he
  subst hck
  rw [zeroRotChannels_append, zeroRotChannels_cons]
  apply zeroRotChannels_stays_zero
  exact zeroJoint_zeroes _ _ _ k (hnd e hmem) hk hkrot
    (by rw [zeroRotChannels_length]; exact hc)

/-- C3 counterexample: a parseable header can declare the same channel name
twice for one joint; Python's `list.index` then resolves both occurrences to
the first one, so the second rotation column is never zeroed.  With layout
`j -> start 0, channels [Xrotation, Xrotation]` and first frame `[5, 5]`,
column 1 belongs to a rotation channel but the synthetic frame keeps 5
there. -/
theorem C3_counterexample :
    parse_joint_channels_from_header ["ROOT j", "CHANNELS 2 Xrotation Xrotation"]
      = [("j", 0, ["Xrotation", "Xrotation"])]
    ∧ isRotCol [("j", 0, ["Xrotation", "Xrotation"])] 1 = true
    ∧ 1 < ([(5 : ℚ), 5] : List ℚ).length
    ∧ (makeTposeFrame (resolveReference RefAttempt.noCandidate)
        [("j", 0, ["Xrotation", "Xrotation"])] [(5 : ℚ), 5]).getD 1 0 ≠ 0 :=
  ⟨by decide, by decide, by decide, by decide⟩

/-- C3 (amended): for every first frame and every channel layout whose
per-joint channel lists contain no duplicate channel names, the synthetic
frame built with no external reference is zero at every rotation column of
the frame and equal to the original first frame at every other column. -/
theorem C3_synth_frame_amended (layout : List LayoutEntry) (frame : List ℚ)
    (hnd : ∀ e ∈ layout, e.2.2.Nodup) :
    (∀ c, c < frame.length → isRotCol layout c = true →
        (makeTposeFrame (resolveReference RefAttempt.noCandidate) layout
          frame).getD c 0 = 0)
    ∧ ∀ c, isRotCol layout c = false →
        (makeTposeFrame (resolveReference RefAttempt.noCandidate) layout
          frame).getD c 0 = frame.getD c 0 := by
  have hmk : makeTposeFrame (resolveReference RefAttempt.noCandidate) layout
      frame = zeroRotChannels layout frame := rfl
  rw [hmk]
  exact ⟨fun c hc hr => zeroRotChannels_getD_of_rot layout frame c hnd hr hc,
    fun c hr => zeroRotChannels_getD_of_notRot layout frame c hr⟩

/-- C3 amended witness: a root joint with translation and rotation channels
and a concrete first frame. -/
theorem C3_amended_witness :
    (∀ e ∈ ([("root", 0, ["Xposition", "Yposition", "Zposition", "Zrotation",
        "Xrotation", "Yrotation"])] : List LayoutEntry), e.2.2.Nodup)
    ∧ ((∀ c, c < ([(1 : ℚ), 2, 3, 4, 5, 6] : List ℚ).length →
          isRotCol [("root", 0, ["Xposition", "Yposition", "Zposition",
            "Zrotation", "Xrotation", "Yrotation"])] c = true →
          (makeTposeFrame (resolveReference RefAttempt.noCandidate)
            [("root", 0, ["Xposition", "Yposition", "Zposition", "Zrotation",
              "Xrotation", "Yrotation"])] [(1 : ℚ), 2, 3, 4, 5, 6]).getD c 0 = 0)
       ∧ ∀ c, isRotCol [("root", 0, ["Xposition", "Yposition", "Zposition",
            "Zrotation", "Xrotation", "Yrotation"])] c = false →
          (makeTposeFrame (resolveReference RefAttempt.noCandidate)
            [("root", 0, ["Xposition", "Yposition", "Zposition", "Zrotation",
              "Xrotation", "Yrotation"])] [(1 : ℚ), 2, 3, 4, 5, 6]).getD c 0
            = ([(1 : ℚ), 2, 3, 4, 5, 6] : List ℚ).getD c 0) :=
  ⟨by decide, C3_synth_frame_amended _ _ (by decide)⟩

/-- C4: for every nonempty clip, the Reference-Pose Synthesizer's output has
one more frame than the input: the synthetic frame sits at index 0 and all
original frames follow unchanged and in order. -/
theorem C4_prepend_adds_one_frame (rs : RefState) (header : List String)
    (rows : List (List ℚ)) (h : rows ≠ []) :
    ∃ out, prepend_tpose_frame_clip rs header (NpData.d2 rows) = Except.ok out
      ∧ out.length = rows.length + 1
      ∧ out.getD 0 []
          = makeTposeFrame rs (parse_joint_channels_from_header header)
              (rows.getD 0 [])
      ∧ out.drop 1 = rows := by
  match rows, h with
  | f0 :: rest, _ =>
    refine ⟨makeTposeFrame rs (parse_joint_channels_from_header header) f0
        :: f0 :: rest, rfl, by simp, rfl, rfl⟩

/-- C4 witness: one clip with a single frame. -/
theorem C4_witness :
    (([[(1 : ℚ), 2, 3]] : List (List ℚ)) ≠ [])
    ∧ ∃ out, prepend_tpose_frame_clip (resolveReference RefAttempt.noCandidate)
          ["ROOT j", "CHANNELS 3 Zrotation Xrotation Yrotation"]
          (NpData.d2 [[(1 : ℚ), 2, 3]]) = Except.ok out
        ∧ out.length = ([[(1 : ℚ), 2, 3]] : List (List ℚ)).length + 1
        ∧ out.getD 0 []
            = makeTposeFrame (resolveReference RefAttempt.noCandidate)
                (parse_joint_channels_from_header
                  ["ROOT j", "CHANNELS 3 Zrotation Xrotation Yrotation"])
                (([[(1 : ℚ), 2, 3]] : List (List ℚ)).getD 0 [])
        ∧ out.drop 1 = [[(1 : ℚ), 2, 3]] :=
  ⟨by decide,
   C4_prepend_adds_one_frame (resolveReference RefAttempt.noCandidate)
     ["ROOT j", "CHANNELS 3 Zrotation Xrotation Yrotation"]
     [[(1 : ℚ), 2, 3]] (by decide)⟩

/-- C9: when the external reference cannot be resolved, read or parsed (the
guarded block raises) or when no candidate file exists, the synthesizer does
not fail: both states produce, for every clip layout and first frame, exactly
the zero-rotation-only synthetic frame, and the forced-zero joint set is
empty in both states. -/
theorem C9_reference_failure_fallback (layout : List LayoutEntry)
    (frame : List ℚ) :
    makeTposeFrame (resolveReference RefAttempt.exn) layout frame
      = makeTposeFrame (resolveReference RefAttempt.noCandidate) layout frame
    ∧ makeTposeFrame (resolveReference RefAttempt.exn) layout frame
      = zeroRotChannels layout frame
    ∧ (resolveReference RefAttempt.exn).forceZero = []
    ∧ (resolveReference RefAttempt.noCandidate).forceZero = [] :=
  ⟨rfl, rfl, rfl, rfl⟩

/-- C10 (implicit): a clip whose frame matrix is empty or not 2-dimensional
makes `prepend_tpose_frame` raise `ValueError` for that clip instead of
producing an output. -/
theorem C10_bad_shape_raises (rs : RefState) (header : List String) :
    prepend_tpose_frame_clip rs header (NpData.d2 [])
        = Except.error "Unexpected BVH data shape"
    ∧ ∀ row, prepend_tpose_frame_clip rs header (NpData.d1 row)
        = Except.error "Unexpected BVH data shape" :=
  ⟨rfl, fun _ => rfl⟩

/-! ## Lemmas: layout offsets computed by the Channel Layout Parser -/

theorem dictInsert_fresh {α : Type} (m : List (String × α)) (k : String)
    (v : α) (h : ∀ e ∈ m, e.1 ≠ k) : dictInsert m k v = m ++ [(k, v)] := by
  have hany : (m.any fun e => e.1 == k) = false := by
    rw [List.any_eq_false]
    intro e he
    simp [h e he]
  unfold dictInsert
  rw [hany]
  simp

theorem foldl_layoutStep_eq (chanOf : String → List String) :
    ∀ (js : List String) (acc : List LayoutEntry) (c : Nat),
      js.Nodup → (∀ j ∈ js, ∀ e ∈ acc, e.1 ≠ j) →
      (js.foldl (layoutStep chanOf) (acc, c)).1 = acc ++ layoutSimple chanOf js c
  | [], acc, c, _, _ => by simp [layoutSimple]
  | j :: js, acc, c, hnd, hfresh => by
    rw [List.foldl_cons]
    have hstep : layoutStep chanOf (acc, c) j
        = (acc ++ [(j, c, chanOf j)], c + (chanOf j).length) := by
      unfold layoutStep
      rw [dictInsert_fresh _ _ _ fun e he => hfresh j (by simp) e he]
    rw [hstep,
      foldl_layoutStep_eq chanOf js (acc ++ [(j, c, chanOf j)])
        (c + (chanOf j).length) (List.nodup_cons.mp hnd).2 ?_]
    · simp [layoutSimple]
    · intro j' hj' e he
      rcases List.mem_append.mp he with h1 | h2
      · exact hfresh j' (by simp [hj']) e h1
      · have he' : e = (j, c, chanOf j) := by simpa using h2
        rw [he']
        intro hej
        have hej' : j = j' := hej
        apply (List.nodup_cons.mp hnd).1
        rw [hej']
        exact hj'

theorem parse_layout_eq_simple (header : List String)
    (hnd : (parseHeaderState header).jointOrder.Nodup) :
    parse_joint_channels_from_header header
      = layoutSimple (chanOfState (parseHeaderState header))
          (parseHeaderState header).jointOrder 0 := by
  unfold parse_joint_channels_from_header
  rw [foldl_layoutStep_eq _ _ _ _ hnd (by simp)]
  simp

theorem layoutSimple_length (f : String → List String) :
    ∀ (js : List String) (c : Nat), (layoutSimple f js c).length = js.length
  | [], _ => rfl
  | _ :: js, c => by
    simp only [layoutSimple, List.length_cons, layoutSimple_length f js]

theorem layoutSimple_contig (f : String → List String) :
    ∀ (js : List String) (c : Nat) (i : Nat),
      i + 1 < (layoutSimple f js c).length →
      ((layoutSimple f js c).getD i ("", 0, [])).2.1
          + ((layoutSimple f js c).getD i ("", 0, [])).2.2.length
        = ((layoutSimple f js c).getD (i + 1) ("", 0, [])).2.1
  | [], c, i, h => by simp [layoutSimple] at h
  | [j], c, i, h => by
    rw [layoutSimple_length] at h
    simp at h
  | j :: j' :: js, c, 0, h => by
    simp [layoutSimple]
  | j :: j' :: js, c, i + 1, h => by
    have h' : i + 1 < (layoutSimple f (j' :: js) (c + (f j).length)).length := by
      rw [layoutSimple_length] at h ⊢
      simpa using h
    have := layoutSimple_contig f (j' :: js) (c + (f j).length) i h'
    simpa [layoutSimple] using this

theorem layoutSimple_last (f : String → List String) :
    ∀ (js : List String) (c : Nat), js ≠ [] →
      ((layoutSimple f js c).getD ((layoutSimple f js c).length - 1)
          ("", 0, [])).2.1
        + ((layoutSimple f js c).getD ((layoutSimple f js c).length - 1)
            ("", 0, [])).2.2.length
        = c + totalChannelWidth (layoutSimple f js c)
  | [], _, h => absurd rfl h
  | [j], c, _ => by simp [layoutSimple, totalChannelWidth]
  | j :: j' :: js, c, _ => by
    have ih := layoutSimple_last f (j' :: js) (c + (f j).length) (by simp)
    have hlen : (layoutSimple f (j :: j' :: js) c).length
        = (layoutSimple f (j' :: js) (c + (f j).length)).length + 1 := by
      rw [layoutSimple_length, layoutSimple_length]
      rfl
    have hpos : 1 ≤ (layoutSimple f (j' :: js) (c + (f j).length)).length := by
      rw [layoutSimple_length]
      simp
    have hgd : ∀ d : LayoutEntry,
        (layoutSimple f (j :: j' :: js) c).getD
            ((layoutSimple f (j :: j' :: js) c).length - 1) d
          = (layoutSimple f (j' :: js) (c + (f j).length)).getD
              ((layoutSimple f (j' :: js) (c + (f j).length)).length - 1) d := by
      intro d
      rw [hlen, Nat.add_sub_cancel]
      show ((j, c, f j) :: layoutSimple f (j' :: js) (c + (f j).length)).getD
          (layoutSimple f (j' :: js) (c + (f j).length)).length d = _
      obtain ⟨m, hm⟩ : ∃ m, (layoutSimple f (j' :: js) (c + (f j).length)).length
          = m + 1 := ⟨_, (Nat.succ_pred_eq_of_pos hpos).symm⟩
      rw [hm, List.getD_cons_succ]
      simp
    rw [hgd, ih]
    have htot : totalChannelWidth (layoutSimple f (j :: j' :: js) c)
        = (f j).length + totalChannelWidth (layoutSimple f (j' :: js)
            (c + (f j).length)) := by
      simp [layoutSimple, totalChannelWidth]
    rw [htot]
    ring

/-- C5: for well-formed headers (distinct joint names, every parsed joint
with a nonempty channel list), the parser's start columns are contiguous and
strictly increasing in joint declaration order: each joint's
`start + len(channels)` equals the next joint's start, and the last joint's
`start + len(channels)` equals the total frame width spanned by the layout. -/
theorem C5_layout_contiguous (header : List String)
    (hnd : (parseHeaderState header).jointOrder.Nodup)
    (hne : ∀ e ∈ parse_joint_channels_from_header header,
      e.2.2 ≠ ([] : List String)) :
    (∀ i, i + 1 < (parse_joint_channels_from_header header).length →
      ((parse_joint_channels_from_header header).getD i ("", 0, [])).2.1
          + ((parse_joint_channels_from_header header).getD i
              ("", 0, [])).2.2.length
        = ((parse_joint_channels_from_header header).getD (i + 1)
            ("", 0, [])).2.1
      ∧ ((parse_joint_channels_from_header header).getD i ("", 0, [])).2.1
        < ((parse_joint_channels_from_header header).getD (i + 1)
            ("", 0, [])).2.1)
    ∧ (parse_joint_channels_from_header header ≠ [] →
        ((parse_joint_channels_from_header header).getD
            ((parse_joint_channels_from_header header).length - 1)
            ("", 0, [])).2.1
          + ((parse_joint_channels_from_header header).getD
              ((parse_joint_channels_from_header header).length - 1)
              ("", 0, [])).2.2.length
          = totalChannelWidth (parse_joint_channels_from_header header)) := by
  have heq := parse_layout_eq_simple header hnd
  constructor
  · intro i hi
    have hcontig : ((parse_joint_channels_from_header header).getD i
          ("", 0, [])).2.1
        + ((parse_joint_channels_from_header header).getD i
            ("", 0, [])).2.2.length
        = ((parse_joint_channels_from_header header).getD (i + 1)
            ("", 0, [])).2.1 := by
      rw [heq] at hi ⊢
      exact layoutSimple_contig _ _ 0 i hi
    refine ⟨hcontig, ?_⟩
    have hmem : (parse_joint_channels_from_header header).getD i ("", 0, [])
        ∈ parse_joint_channels_from_header header := by
      rw [List.getD_eq_getElem _ _ (by omega)]
      exact List.getElem_mem _
    have hchan := hne _ hmem
    have hpos : 0 < ((parse_joint_channels_from_header header).getD i
        ("", 0, [])).2.2.length := List.length_pos.mpr hchan
    omega
  · intro hne'
    have h0 : (parseHeaderState header).jointOrder ≠ [] := by
      intro h0
      apply hne'
      rw [heq, h0]
      rfl
    rw [heq]
    have := layoutSimple_last (chanOfState (parseHeaderState header))
      (parseHeaderState header).jointOrder 0 h0
    simpa using this

/-- C5 witness: a two-joint header with 6 and 3 channels. -/
theorem C5_witness :
    (parseHeaderState exampleHeader).jointOrder.Nodup
    ∧ (∀ e ∈ parse_joint_channels_from_header exampleHeader,
        e.2.2 ≠ ([] : List String))
    ∧ ((∀ i, i + 1 < (parse_joint_channels_from_header exampleHeader).length →
          ((parse_joint_channels_from_header exampleHeader).getD i
              ("", 0, [])).2.1
              + ((parse_joint_channels_from_header exampleHeader).getD i
                  ("", 0, [])).2.2.length
            = ((parse_joint_channels_from_header exampleHeader).getD (i + 1)
                ("", 0, [])).2.1
          ∧ ((parse_joint_channels_from_header exampleHeader).getD i
              ("", 0, [])).2.1
            < ((parse_joint_channels_from_header exampleHeader).getD (i + 1)
                ("", 0, [])).2.1)
       ∧ (parse_joint_channels_from_header exampleHeader ≠ [] →
            ((parse_joint_channels_from_header exampleHeader).getD
                ((parse_joint_channels_from_header exampleHeader).length - 1)
                ("", 0, [])).2.1
              + ((parse_joint_channels_from_header exampleHeader).getD
                  ((parse_joint_channels_from_header exampleHeader).length - 1)
                  ("", 0, [])).2.2.length
              = totalChannelWidth (parse_joint_channels_from_header exampleHeader))) :=
  ⟨by decide, by decide, C5_layout_contiguous exampleHeader (by decide) (by decide)⟩

/-- C6 counterexample: a channel declaration naming more channels than the
BVH format supports (7 > 6) is not ignored — the parser stores all 7 names,
so the joint does not keep an empty channel list. -/
theorem C6_counterexample :
    parse_joint_channels_from_header ["ROOT j",
        "CHANNELS 7 Xposition Yposition Zposition Zrotation Xrotation Yrotation Wrotation"]
      = [("j", 0, ["Xposition", "Yposition", "Zposition", "Zrotation",
          "Xrotation", "Yrotation", "Wrotation"])]
    ∧ ((parse_joint_channels_from_header ["ROOT j",
          "CHANNELS 7 Xposition Yposition Zposition Zrotation Xrotation Yrotation Wrotation"]).getD
          0 ("", 0, [])).2.2.length = 7
    ∧ ((parse_joint_channels_from_header ["ROOT j",
          "CHANNELS 7 Xposition Yposition Zposition Zrotation Xrotation Yrotation Wrotation"]).getD
          0 ("", 0, [])).2.2 ≠ [] :=
  ⟨by decide, by decide, by decide⟩

/-- C6 (amended): the Channel Layout Parser never raises (it is a total
function), and it ignores a channel declaration that appears before any
joint has been declared, has fewer than three whitespace-separated tokens,
or carries a non-integer count; a declaration naming more channels than the
format supports is, however, stored as written, not ignored. -/
theorem C6_parser_ignores_amended (st : ParseSt) (line : String)
    (h1 : pyStartsWith (pyStrip line) "ROOT " = false)
    (h2 : pyStartsWith (pyStrip line) "JOINT " = false)
    (h3 : pyStartsWith (pyStrip line) "CHANNELS " = true) :
    (st.currentJoint = none → parseLine st line = st)
    ∧ ((pyWords (pyStrip line)).length < 3 → parseLine st line = st)
    ∧ (pyToInt? ((pyWords (pyStrip line)).getD 1 "") = none →
        parseLine st line = st) := by
  refine ⟨?_, ?_, ?_⟩
  · intro h
    unfold parseLine
    simp only [h1, h2, h3, Bool.false_eq_true, if_false, if_true, h]
  · intro h
    unfold parseLine
    simp only [h1, h2, h3, Bool.false_eq_true, if_false, if_true]
    cases st.currentJoint with
    | none => rfl
    | some cj => simp only [if_pos h]
  · intro h
    unfold parseLine
    simp only [h1, h2, h3, Bool.false_eq_true, if_false, if_true]
    cases st.currentJoint with
    | none => rfl
    | some cj =>
      by_cases hlen : (pyWords (pyStrip line)).length < 3
      · simp only [if_pos hlen]
      · simp only [if_neg hlen, h]

/-- C6 amended witness: a `CHANNELS` line with too few tokens seen with no
current joint, and a `CHANNELS` line with a non-integer count. -/
theorem C6_amended_witness :
    (pyStartsWith (pyStrip "CHANNELS x") "ROOT " = false)
    ∧ (pyStartsWith (pyStrip "CHANNELS x") "JOINT " = false)
    ∧ (pyStartsWith (pyStrip "CHANNELS x") "CHANNELS " = true)
    ∧ ((ParseSt.mk [] [] none).currentJoint = none →
        parseLine (ParseSt.mk [] [] none) "CHANNELS x" = ParseSt.mk [] [] none)
    ∧ ((pyWords (pyStrip "CHANNELS x")).length < 3 →
        parseLine (ParseSt.mk [] [] none) "CHANNELS x" = ParseSt.mk [] [] none)
    ∧ (pyToInt? ((pyWords (pyStrip "CHANNELS x")).getD 1 "") = none →
        parseLine (ParseSt.mk [] [] none) "CHANNELS x" = ParseSt.mk [] [] none) :=
  ⟨by decide, by decide, by decide,
   (C6_parser_ignores_amended (ParseSt.mk [] [] none) "CHANNELS x"
     (by decide) (by decide) (by decide)).1,
   (C6_parser_ignores_amended (ParseSt.mk [] [] none) "CHANNELS x"
     (by decide) (by decide) (by decide)).2.1,
   (C6_parser_ignores_amended (ParseSt.mk [] [] none) "CHANNELS x"
     (by decide) (by decide) (by decide)).2.2⟩
